import Mathlib

/-
Verification of the event-driven backtesting engine (pytech).

Shallow embedding of the accounting and event-dispatch core:
  * src/pytech/fin/asset/owned_asset.py  (OwnedAsset)
  * src/pytech/backtest/backtest.py      (Backtest.run, Backtest._process_event)
  * src/tests/test_portfolio.py          (Portfolio.check_liquidity, via its test)

Python floats are embedded as rationals; Python ints as Int.  A Python value
that may be either an int or a float is embedded as NumVal, so that the
isinstance(..., numbers.Integral) check in the shares_owned setter is
faithfully representable.  Exceptions are embedded as Except PyError.
-/

namespace PyTech

/-- Embedding of Python exceptions raised by the modelled code. -/
inductive PyError
  | typeError (msg : String)
  | valueError (msg : String)
  deriving DecidableEq, Repr

/-- Embedding of a Python numeric value that is either an int or a float.
The distinction matters for the isinstance(shares_owned, numbers.Integral)
check: a float is never Integral, even when its value is a whole number. -/
inductive NumVal
  | intVal (i : Int)
  | floatVal (q : ℚ)
  deriving DecidableEq, Repr

/-- Python addition int + NumVal: int + int is an int, int + float is a float. -/
def NumVal.addInt (i : Int) : NumVal → NumVal
  | .intVal j => .intVal (i + j)
  | .floatVal q => .floatVal (i + q)

/-- Position side of an owned asset, from pytech.utils.enums. -/
inductive Position
  | long
  | short
  deriving DecidableEq, Repr

/-- Argument passed to the OwnedAsset constructor for the position side:
either a valid Position member or some invalid value. -/
inductive PositionInput
  | pos (p : Position)
  | invalid (s : String)
  deriving DecidableEq, Repr

/-- Modelled from the spec: Position.check_if_valid lives in
pytech.utils.enums, which is not part of the sources; per the spec an unknown
position side must fail fast at construction time, so the check returns the
valid member or raises. -/
def Position.check_if_valid : PositionInput → Except PyError Position
  | .pos p => .ok p
  | .invalid s => .error (.valueError s)

/-- Dates are opaque to the accounting core. -/
abbrev Date := Nat

/-- Modelled from the spec: pytech.utils.parse_date is not part of the
sources; the core only needs that it is a function from raw date inputs to
parsed dates, so it is modelled as the identity on the opaque Date type. -/
def parse_date (d : Date) : Date := d

/-- State of OwnedAsset (src/pytech/fin/asset/owned_asset.py).  The private
field _shares_owned holds an Int because the shares_owned setter only ever
assigns values that passed the Integral check. -/
structure OwnedAsset where
  ticker : String
  position : Position
  purchase_date : Date
  average_share_price_paid : ℚ
  latest_price : ℚ
  latest_price_time : Date
  total_position_value : ℚ
  total_position_cost : ℚ
  shares_owned : Int
  deriving DecidableEq, Repr

namespace OwnedAsset

/-- Embedding of the shares_owned setter: assigning a value that is not an
instance of numbers.Integral raises TypeError; otherwise the int is stored. -/
def sharesOwnedSet : NumVal → Except PyError Int
  | .intVal i => .ok i
  | .floatVal _ => .error (.typeError "shares_owned MUST be an integer.")

/-- Embedding of OwnedAsset._set_position_cost_and_value: mutates
total_position_cost and total_position_value in place, multiplying the given
price by the CURRENT shares_owned (exactly as the source does). -/
def set_position_cost_and_value (a : OwnedAsset) (price : ℚ) : OwnedAsset :=
  match a.position with
  | .long =>
      { a with
        total_position_cost :=
          a.total_position_cost + price * (a.shares_owned : ℚ) * (-1)
        total_position_value :=
          a.total_position_value + price * (a.shares_owned : ℚ) }
  | .short =>
      { a with
        total_position_cost :=
          a.total_position_cost + price * (a.shares_owned : ℚ)
        total_position_value :=
          a.total_position_value + price * (a.shares_owned : ℚ) * (-1) }

/-- Embedding of OwnedAsset.__init__.  The position check runs first, then
the date handling, then the shares_owned setter, then
_set_position_cost_and_value, in source order. -/
def init (ticker : String) (shares_owned : NumVal) (position : PositionInput)
    (avg_share_price : ℚ) (purchase_date : Date) : Except PyError OwnedAsset :=
  match Position.check_if_valid position with
  | .error e => .error e
  | .ok pos =>
    match sharesOwnedSet shares_owned with
    | .error e => .error e
    | .ok n =>
      let a : OwnedAsset :=
        { ticker := ticker
          position := pos
          purchase_date := parse_date purchase_date
          average_share_price_paid := avg_share_price
          latest_price := avg_share_price
          latest_price_time := parse_date purchase_date
          total_position_value := 0
          total_position_cost := 0
          shares_owned := n }
      .ok (a.set_position_cost_and_value avg_share_price)

/-- Fields of a pytech.trading.trade.Trade that the factory consumes. -/
structure Trade where
  ticker : String
  qty : NumVal
  avg_price_per_share : ℚ
  trade_date : Date
  deriving DecidableEq, Repr

/-- Embedding of the classmethod OwnedAsset.from_trade: forwards the trade
fields to the constructor. -/
def from_trade (trade : Trade) (asset_position : PositionInput) :
    Except PyError OwnedAsset :=
  init trade.ticker trade.qty asset_position trade.avg_price_per_share
    trade.trade_date

/-- Embedding of OwnedAsset.make_trade.  Returns the updated state together
with a flag: true when the Python method returns self, false when the
ZeroDivisionError branch returns None.  In both cases the mutations already
made to the object persist. -/
def make_trade (a : OwnedAsset) (qty : NumVal) (price_per_share : ℚ) :
    Except PyError (OwnedAsset × Bool) :=
  match sharesOwnedSet (NumVal.addInt a.shares_owned qty) with
  | .error e => .error e
  | .ok n =>
    let a := { a with shares_owned := n }
    let a := a.set_position_cost_and_value price_per_share
    if a.shares_owned = 0 then
      .ok (a, false)
    else
      .ok ({ a with
        average_share_price_paid :=
          a.total_position_value / (a.shares_owned : ℚ) }, true)

/-- Embedding of OwnedAsset.update_total_position_value: sets latest_price
and latest_price_time, then overwrites total_position_value from the latest
price, negated for a SHORT position. -/
def update_total_position_value (a : OwnedAsset) (latest_price : ℚ)
    (price_date : Date) : OwnedAsset :=
  let a := { a with
    latest_price := latest_price
    latest_price_time := parse_date price_date }
  match a.position with
  | .short =>
      { a with total_position_value :=
          a.latest_price * (a.shares_owned : ℚ) * (-1) }
  | .long =>
      { a with total_position_value :=
          a.latest_price * (a.shares_owned : ℚ) }

/-- Python call semantics for update_total_position_value: the method has two
required positional parameters, so a call site must supply both values or the
interpreter raises TypeError before the body runs. -/
def update_total_position_value_call (a : OwnedAsset)
    (args : Option (ℚ × Date)) : Except PyError OwnedAsset :=
  match args with
  | some (p, d) => .ok (a.update_total_position_value p d)
  | none => .error (.typeError
      "update_total_position_value missing 2 required positional arguments")

/-- Embedding of OwnedAsset.return_on_investment: calls
update_total_position_value with no arguments, then would compute the ratio. -/
def return_on_investment (a : OwnedAsset) : Except PyError ℚ :=
  match update_total_position_value_call a none with
  | .error e => .error e
  | .ok a =>
    .ok ((a.total_position_value + a.total_position_cost) /
      (a.total_position_cost * (-1)))

end OwnedAsset

/-- Modelled from the spec: the Portfolio class is not part of the sources
(only its test is).  Per the spec, check_liquidity returns true iff the
portfolio has enough free cash to cover the signed cost of acquiring qty
shares at the given price (cost = price * qty; for negative qty the cost is
negative and liquidity always holds). -/
structure Portfolio where
  cash : ℚ
  deriving DecidableEq, Repr

/-- Modelled from the spec: check_liquidity is false iff price * qty exceeds
the available cash, for qty at least 0; always true for qty below 0. -/
def Portfolio.check_liquidity (p : Portfolio) (price : ℚ) (qty : Int) : Bool :=
  if qty < 0 then true
  else decide (price * (qty : ℚ) ≤ p.cash)

/-- Events carried on the Backtest queue.  The dispatcher in
Backtest._process_event tests event_type against exactly four enum members;
any object whose event_type is none of them is represented by otherTag. -/
inductive Event
  | market
  | signal
  | trade
  | fill
  | otherTag (tag : Nat)
  deriving DecidableEq, Repr

/-- Handlers that _process_event can invoke on the collaborating objects. -/
inductive HandlerCall
  | generateSignals
  | updateTimeindex
  | updateSignal
  | executeOrder
  | updateFill
  deriving DecidableEq, Repr

/-- Event counters kept by the Backtest driver. -/
structure Counters where
  signals : Nat
  orders : Nat
  fills : Nat
  deriving DecidableEq, Repr

/-- Embedding of Backtest._process_event: dispatch on event_type with an
if/elif chain and no else branch.  The result is the updated counters and
the list of handler invocations made, in order; an uncaught raise inside the
dispatcher would be an error value, and none ever occurs. -/
def processEvent (c : Counters) (e : Event) :
    Except PyError (Counters × List HandlerCall) :=
  match e with
  | .market => .ok (c, [.generateSignals, .updateTimeindex])
  | .signal => .ok ({ c with signals := c.signals + 1 }, [.updateSignal])
  | .trade => .ok ({ c with orders := c.orders + 1 }, [.executeOrder])
  | .fill => .ok ({ c with fills := c.fills + 1 }, [.updateFill])
  | .otherTag _ => .ok (c, [])

/-- Control location of the Backtest.run loop: requesting the next bar,
draining the event queue, or exited. -/
inductive Phase
  | awaitingBar
  | draining
  | terminated
  deriving DecidableEq, Repr

/-- Configuration of the Backtest.run loop: remaining bars in the feed, the
control phase, the counters, the FIFO event queue, the events dispatched so
far, and a ghost log of every event ever put on the queue. -/
structure Config where
  barsRemaining : Nat
  phase : Phase
  counters : Counters
  queue : List Event
  dispatched : List Event
  pushed : List Event
  deriving DecidableEq, Repr

/-- Initial configuration of Backtest.run with n bars left in the feed. -/
def Config.start (n : Nat) : Config :=
  { barsRemaining := n
    phase := .awaitingBar
    counters := { signals := 0, orders := 0, fills := 0 }
    queue := []
    dispatched := []
    pushed := [] }

/-- Small-step semantics of Backtest.run, parameterised by hgen, the events
each invoked handler pushes onto the queue (the pluggable strategy,
portfolio and execution simulator).  The bar feed is modelled from the spec:
update_bars either consumes one remaining bar and pushes one MARKET event,
or raises StopIteration without pushing anything, which breaks the outer
loop.  The inner loop pops the head of the FIFO queue and dispatches it via
processEvent until the queue is empty. -/
inductive Step (hgen : HandlerCall → List Event) : Config → Config → Prop
  | nextBar (c : Config) (b : Nat)
      (hp : c.phase = .awaitingBar) (hb : c.barsRemaining = b + 1) :
      Step hgen c
        { c with
          barsRemaining := b
          phase := .draining
          queue := c.queue ++ [.market]
          pushed := c.pushed ++ [.market] }
  | endOfHistory (c : Config)
      (hp : c.phase = .awaitingBar) (hb : c.barsRemaining = 0) :
      Step hgen c { c with phase := .terminated }
  | dispatch (c : Config) (e : Event) (q : List Event)
      (k : Counters) (calls : List HandlerCall)
      (hp : c.phase = .draining) (hq : c.queue = e :: q)
      (hpe : processEvent c.counters e = .ok (k, calls)) :
      Step hgen c
        { c with
          counters := k
          queue := q ++ calls.flatMap hgen
          dispatched := c.dispatched ++ [e]
          pushed := c.pushed ++ calls.flatMap hgen }
  | queueEmpty (c : Config)
      (hp : c.phase = .draining) (hq : c.queue = []) :
      Step hgen c { c with phase := .awaitingBar }

/-- Reachability of the run loop: the reflexive-transitive closure of Step
from the initial configuration. -/
def Reaches (hgen : HandlerCall → List Event) (n : Nat) (c : Config) : Prop :=
  Relation.ReflTransGen (Step hgen) (Config.start n) c

/-- Loop invariant of Backtest.run: the ghost log of pushed events is the
dispatched events followed by the current queue, and outside the draining
phase the queue is empty. -/
def ConfigInv (c : Config) : Prop :=
  c.pushed = c.dispatched ++ c.queue ∧ (c.phase ≠ .draining → c.queue = [])

theorem step_preserves_inv {hgen : HandlerCall → List Event} {c d : Config}
    (h : Step hgen c d) (hc : ConfigInv c) : ConfigInv d := by
  obtain ⟨hlog, hempty⟩ := hc
  cases h with
  | nextBar b hp hb =>
      refine ⟨?_, ?_⟩
      · simp [hlog, List.append_assoc]
      · intro hph; simp at hph
  | endOfHistory hp hb =>
      refine ⟨hlog, ?_⟩
      intro _
      exact hempty (by simp [hp])
  | dispatch e q k calls hp hq hpe =>
      refine ⟨?_, ?_⟩
      · show c.pushed ++ _ = (c.dispatched ++ [e]) ++ _
        rw [hlog, hq]
        simp
      · intro hph
        exact absurd hp (by simpa using hph)
  | queueEmpty hp hq =>
      exact ⟨hlog, fun _ => hq⟩

theorem reaches_inv {hgen : HandlerCall → List Event} {n : Nat} {c : Config}
    (h : Reaches hgen n c) : ConfigInv c := by
  induction h with
  | refl => exact ⟨rfl, fun _ => rfl⟩
  | tail _ hstep ih => exact step_preserves_inv hstep ih

end PyTech

namespace PyTech

open OwnedAsset

/-- Fields that _set_position_cost_and_value leaves untouched: it only
mutates total_position_cost and total_position_value. -/
theorem set_position_cost_and_value_fields (a : OwnedAsset) (p : ℚ) :
    (a.set_position_cost_and_value p).shares_owned = a.shares_owned
    ∧ (a.set_position_cost_and_value p).average_share_price_paid
        = a.average_share_price_paid
    ∧ (a.set_position_cost_and_value p).position = a.position
    ∧ (a.set_position_cost_and_value p).latest_price = a.latest_price := by
  cases hpos : a.position <;>
    simp [OwnedAsset.set_position_cost_and_value, hpos]

/-- The spec-modelled check_liquidity agrees with test_check_liquidity in
src/tests/test_portfolio.py: with starting cash 100, (100.0, 2) is not
liquid, (100.0, -2) is liquid, and (1.0, 2) is liquid. -/
theorem check_liquidity_matches_test :
    (Portfolio.mk 100).check_liquidity 100 2 = false
    ∧ (Portfolio.mk 100).check_liquidity 100 (-2) = true
    ∧ (Portfolio.mk 100).check_liquidity 1 2 = true := by
  refine ⟨?_, ?_, ?_⟩ <;> simp [Portfolio.check_liquidity] <;> norm_num

/-- Claim C1: the spec states that applying fills one-by-one through
make_trade yields the same average_share_price_paid as one combined fill of
the total quantity at the quantity-weighted price.  The code violates this:
_set_position_cost_and_value accumulates price times the NEW TOTAL
shares_owned instead of price times the fill quantity.  Opening LONG with 10
shares at 10 and then filling 10 more at 20 yields average 25, while the
combined fill of 20 shares at the weighted price (10*10 + 10*20)/(10+10) = 15
yields average 15. -/
theorem make_trade_average_diverges_from_combined_fill :
    ((OwnedAsset.init "X" (NumVal.intVal 10) (.pos .long) 10 0).bind fun a =>
        (a.make_trade (NumVal.intVal 10) 20).map fun r =>
          r.1.average_share_price_paid) = .ok 25
    ∧ ((OwnedAsset.init "X" (NumVal.intVal 20) (.pos .long) 15 0).map fun a =>
        a.average_share_price_paid) = .ok 15
    ∧ (15 : ℚ) = (10 * 10 + 10 * 20) / (10 + 10)
    ∧ (25 : ℚ) ≠ 15 := by
  refine ⟨?_, ?_, by norm_num, by norm_num⟩ <;>
    · simp [OwnedAsset.init, OwnedAsset.make_trade, OwnedAsset.sharesOwnedSet,
        NumVal.addInt, OwnedAsset.set_position_cost_and_value,
        Position.check_if_valid, Except.bind, Except.map]
      all_goals norm_num

/-- Claim C2: the spec invariant says that after each fill a LONG position
has total_position_cost equal to the negated cumulative cash outflow and
total_position_value equal to shares_owned times the latest price.  The code
violates both after a second fill: opening LONG with 10 shares at 10 and
filling 10 more at 20 leaves cost = -500 (the claimed value is
-(10*10 + 20*10) = -300), value = 500 while shares_owned * latest_price =
20 * 10 = 200, and value + cost = 0 instead of the unrealized P&L. -/
theorem position_cost_value_invariant_fails_after_second_fill :
    ((OwnedAsset.init "X" (NumVal.intVal 10) (.pos .long) 10 0).bind fun a =>
        (a.make_trade (NumVal.intVal 10) 20).map fun r =>
          (r.1.total_position_cost, r.1.total_position_value,
           (r.1.shares_owned : ℚ) * r.1.latest_price,
           r.1.total_position_value + r.1.total_position_cost))
      = .ok (-500, 500, 200, 0)
    ∧ (-500 : ℚ) ≠ -(10 * 10 + 20 * 10)
    ∧ (500 : ℚ) ≠ 20 * 10 := by
  refine ⟨?_, by norm_num, by norm_num⟩
  simp [OwnedAsset.init, OwnedAsset.make_trade, OwnedAsset.sharesOwnedSet,
    NumVal.addInt, OwnedAsset.set_position_cost_and_value,
    Position.check_if_valid, Except.bind, Except.map] <;>
  norm_num

/-- Claim C3 (counterexample): the spec says an event whose event_type is
none of MARKET, SIGNAL, TRADE or FILL is a fatal error when dispatched.  At
the concrete unknown event otherTag 0 the dispatcher instead returns
normally, invoking no handler and leaving the counters unchanged. -/
theorem process_event_unknown_not_fatal :
    processEvent { signals := 0, orders := 0, fills := 0 } (Event.otherTag 0)
      = .ok ({ signals := 0, orders := 0, fills := 0 }, []) := rfl

/-- Claim C3 (amended): dispatching an event whose event_type is none of
MARKET, SIGNAL, TRADE or FILL is silently skipped: the if/elif chain in
Backtest._process_event has no else branch, so no handler is invoked, no
counter changes, and no error is raised. -/
theorem process_event_unknown_silently_skipped (c : Counters) (tag : Nat) :
    processEvent c (Event.otherTag tag) = .ok (c, []) := rfl

/-- Claim C9: return_on_investment invokes update_total_position_value with
no arguments although the method requires two positional arguments, so every
call raises TypeError before any ratio is computed. -/
theorem return_on_investment_always_raises (a : OwnedAsset) :
    a.return_on_investment = .error (.typeError
      "update_total_position_value missing 2 required positional arguments")
    := rfl

/-- Claim C7: update_total_position_value sets latest_price to the given
price, latest_price_time to the parsed date, and total_position_value to
shares_owned times the latest price for a LONG position and its negation for
a SHORT position. -/
theorem update_total_position_value_spec (a : OwnedAsset) (p : ℚ) (d : Date) :
    (a.update_total_position_value p d).latest_price = p
    ∧ (a.update_total_position_value p d).latest_price_time = parse_date d
    ∧ (a.update_total_position_value p d).total_position_value =
        (match a.position with
         | .long => (a.shares_owned : ℚ) * p
         | .short => -((a.shares_owned : ℚ) * p)) := by
  cases hpos : a.position <;>
    simp [OwnedAsset.update_total_position_value, hpos] <;> ring

/-- Claim C4: check_liquidity(price, qty) returns false iff qty is
nonnegative and price * qty exceeds the available cash, and returns true for
every qty below zero regardless of price and cash.  Portfolio is modelled
from the spec because only its test is among the sources. -/
theorem check_liquidity_spec (p : Portfolio) (price : ℚ) (qty : Int) :
    (p.check_liquidity price qty = false
      ↔ 0 ≤ qty ∧ p.cash < price * (qty : ℚ))
    ∧ (qty < 0 → p.check_liquidity price qty = true) := by
  constructor
  · rw [Portfolio.check_liquidity]
    split
    · rename_i hneg
      simp only [Bool.true_eq_false, false_iff]
      rintro ⟨h0, _⟩
      omega
    · rename_i hnonneg
      rw [not_lt] at hnonneg
      simp [hnonneg, not_le]
  · intro hneg
    simp [Portfolio.check_liquidity, hneg]

/-- Witness for C4 at the first input of the test: cash 100, price 100,
quantity 2. -/
theorem check_liquidity_spec_witness :
    ((Portfolio.mk 100).check_liquidity 100 2 = false
      ↔ 0 ≤ (2 : Int) ∧ (Portfolio.mk 100).cash < 100 * (((2 : Int)) : ℚ))
    ∧ ((2 : Int) < 0 → (Portfolio.mk 100).check_liquidity 100 2 = true) :=
  check_liquidity_spec (Portfolio.mk 100) 100 2

/-- Claim C5: a make_trade whose quantity delta brings shares_owned to
exactly zero does not raise: the ZeroDivisionError branch is taken,
average_share_price_paid keeps its previous value, and the call returns
normally with None, signalling a closed position. -/
theorem make_trade_to_zero_closes_position (a : OwnedAsset) (q : Int)
    (price : ℚ) (h : a.shares_owned + q = 0) :
    ∃ b, a.make_trade (NumVal.intVal q) price = .ok (b, false)
      ∧ b.average_share_price_paid = a.average_share_price_paid
      ∧ b.shares_owned = 0 := by
  refine ⟨({ a with shares_owned :=
      a.shares_owned + q }).set_position_cost_and_value price, ?_, ?_, ?_⟩
  · rw [OwnedAsset.make_trade]
    simp only [NumVal.addInt, OwnedAsset.sharesOwnedSet]
    rw [if_pos]
    exact (set_position_cost_and_value_fields _ price).1.trans h
  · exact (set_position_cost_and_value_fields _ price).2.1
  · exact (set_position_cost_and_value_fields _ price).1.trans h

/-- Witness for C5: a LONG position of 10 shares at 10 closed by a fill of
-10 at 12. -/
theorem make_trade_to_zero_witness :
    (OwnedAsset.mk "X" .long 0 10 10 0 100 (-100) 10).shares_owned + (-10) = 0
    ∧ ∃ b, (OwnedAsset.mk "X" .long 0 10 10 0 100 (-100) 10).make_trade
          (NumVal.intVal (-10)) 12 = .ok (b, false)
        ∧ b.average_share_price_paid
            = (OwnedAsset.mk "X" .long 0 10 10 0 100 (-100) 10
                ).average_share_price_paid
        ∧ b.shares_owned = 0 :=
  ⟨by norm_num,
   make_trade_to_zero_closes_position
     (OwnedAsset.mk "X" .long 0 10 10 0 100 (-100) 10) (-10) 12 (by norm_num)⟩

/-- Claim C8: a non-integral share count raises TypeError in the
constructor, in from_trade and in make_trade; an invalid position side
raises at construction time; and a successful construction stores exactly
the integer share count that was given, never a coerced value. -/
theorem integral_shares_and_position_validation :
    (∀ (t : String) (q : ℚ) (pos : Position) (p : ℚ) (d : Date),
      OwnedAsset.init t (NumVal.floatVal q) (.pos pos) p d
        = .error (.typeError "shares_owned MUST be an integer."))
    ∧ (∀ (t : String) (sh : NumVal) (s : String) (p : ℚ) (d : Date),
      OwnedAsset.init t sh (.invalid s) p d = .error (.valueError s))
    ∧ (∀ (a : OwnedAsset) (q : ℚ) (p : ℚ),
      a.make_trade (NumVal.floatVal q) p
        = .error (.typeError "shares_owned MUST be an integer."))
    ∧ (∀ (t : String) (q : ℚ) (pp : ℚ) (td : Date) (pos : Position),
      OwnedAsset.from_trade ⟨t, NumVal.floatVal q, pp, td⟩ (.pos pos)
        = .error (.typeError "shares_owned MUST be an integer."))
    ∧ (∀ (t : String) (sh : NumVal) (pin : PositionInput) (p : ℚ) (d : Date)
        (a : OwnedAsset), OwnedAsset.init t sh pin p d = .ok a →
      ∃ i : Int, sh = NumVal.intVal i ∧ a.shares_owned = i) := by
  refine ⟨fun t q pos p d => rfl, fun t sh s p d => rfl, fun a q p => rfl,
    fun t q pp td pos => rfl, ?_⟩
  intro t sh pin p d a hok
  cases pin with
  | invalid s =>
      rw [OwnedAsset.init] at hok
      simp [Position.check_if_valid] at hok
  | pos pp =>
      cases sh with
      | floatVal q =>
          rw [OwnedAsset.init] at hok
          simp [Position.check_if_valid, OwnedAsset.sharesOwnedSet] at hok
      | intVal i =>
          refine ⟨i, rfl, ?_⟩
          rw [OwnedAsset.init] at hok
          simp only [Position.check_if_valid, OwnedAsset.sharesOwnedSet,
            Except.ok.injEq] at hok
          rw [← hok]
          exact (set_position_cost_and_value_fields _ p).1

/-- Witness for C8: the float 21/2 is rejected by the constructor, the
invalid position NOT_A_POSITION is rejected at construction, and the valid
construction with 10 shares stores the integer 10. -/
theorem integral_shares_witness :
    OwnedAsset.init "X" (NumVal.floatVal (21 / 2)) (.pos .long) 10 0
        = .error (.typeError "shares_owned MUST be an integer.")
    ∧ OwnedAsset.init "X" (NumVal.intVal 10) (.invalid "NOT_A_POSITION") 10 0
        = .error (.valueError "NOT_A_POSITION")
    ∧ ∃ i : Int, NumVal.intVal 10 = NumVal.intVal i
        ∧ (OwnedAsset.mk "X" .long (parse_date 0) 10 10 (parse_date 0)
            ((0 : ℚ) + 10 * ((10 : Int) : ℚ))
            ((0 : ℚ) + 10 * ((10 : Int) : ℚ) * (-1)) 10).shares_owned = i :=
  ⟨integral_shares_and_position_validation.1 "X" (21 / 2) .long 10 0,
   integral_shares_and_position_validation.2.1 "X" (NumVal.intVal 10)
     "NOT_A_POSITION" 10 0,
   integral_shares_and_position_validation.2.2.2.2 "X" (NumVal.intVal 10)
     (.pos .long) 10 0 _ rfl⟩

/-- Claim C10: a freshly constructed OwnedAsset, directly or via from_trade,
has average_share_price_paid and latest_price equal to the given price,
total_position_value equal to n * p for LONG and -(n * p) for SHORT,
total_position_cost of the opposite sign, and therefore zero unrealized
P and L at creation. -/
theorem init_establishes_accounting_fields (t : String) (n : Int)
    (pos : Position) (p : ℚ) (d : Date) :
    ((OwnedAsset.init t (NumVal.intVal n) (.pos pos) p d).map fun a =>
        (a.average_share_price_paid, a.latest_price, a.total_position_value,
         a.total_position_cost,
         a.total_position_value + a.total_position_cost))
      = .ok (p, p,
          (match pos with
           | .long => (n : ℚ) * p
           | .short => -((n : ℚ) * p)),
          (match pos with
           | .long => -((n : ℚ) * p)
           | .short => (n : ℚ) * p), 0)
    ∧ OwnedAsset.from_trade ⟨t, NumVal.intVal n, p, d⟩ (.pos pos)
      = OwnedAsset.init t (NumVal.intVal n) (.pos pos) p d := by
  refine ⟨?_, rfl⟩
  cases pos <;>
    simp [OwnedAsset.init, Position.check_if_valid, OwnedAsset.sharesOwnedSet,
      OwnedAsset.set_position_cost_and_value, Except.map, mul_comm]

/-- Claim C6: in the Backtest.run loop, once the bar feed signals
end-of-history the loop terminates with an empty queue, having dispatched
every event that was ever put on the queue: no queued event is dropped at
termination.  The bar feed behaviour is modelled from the spec. -/
theorem run_terminates_with_queue_drained (hgen : HandlerCall → List Event)
    (n : Nat) (c : Config) (h : Reaches hgen n c)
    (ht : c.phase = .terminated) :
    c.queue = [] ∧ c.dispatched = c.pushed := by
  obtain ⟨hlog, hempty⟩ := reaches_inv h
  have hq : c.queue = [] := hempty (by simp [ht])
  exact ⟨hq, by simp [hlog, hq]⟩

/-- Handler behaviour that pushes no further events, used to witness C6. -/
def hgNil : HandlerCall → List Event := fun _ => []

/-- Terminated configuration reached from one bar whose MARKET event was
dispatched, used to witness C6. -/
def cTerm : Config :=
  { barsRemaining := 0
    phase := .terminated
    counters := { signals := 0, orders := 0, fills := 0 }
    queue := []
    dispatched := [.market]
    pushed := [.market] }

/-- Witness for C6: a one-bar run that pushes and dispatches one MARKET
event and then terminates with the queue drained. -/
theorem run_terminates_witness :
    Reaches hgNil 1 cTerm ∧ cTerm.phase = .terminated
    ∧ cTerm.queue = [] ∧ cTerm.dispatched = cTerm.pushed := by
  have hreach : Reaches hgNil 1 cTerm := by
    refine Relation.ReflTransGen.head
      (Step.nextBar (Config.start 1) 0 rfl rfl) ?_
    refine Relation.ReflTransGen.head
      (Step.dispatch _ .market [] { signals := 0, orders := 0, fills := 0 }
        [.generateSignals, .updateTimeindex] rfl rfl rfl) ?_
    refine Relation.ReflTransGen.head (Step.queueEmpty _ rfl rfl) ?_
    refine Relation.ReflTransGen.head (Step.endOfHistory _ rfl rfl) ?_
    exact Relation.ReflTransGen.refl
  refine ⟨hreach, rfl, ?_, ?_⟩ <;>
    have := run_terminates_with_queue_drained hgNil 1 cTerm hreach rfl
  · exact this.1
  · exact this.2

end PyTech
